import Mathlib

/-!
Verification of the `onas-life` migrations CLI (`src/api/umzug/cli.js`).

The CLI is a thin front-end over an external migration engine (`umzug`).
We embed the CLI shallowly: each run of the CLI is a pure function from

  * an abstract engine oracle (the results `pending`, `up`, `down` and
    `storage.executed` would return),
  * the template file content,
  * the current UTC date (the values the `Date` UTC getters return),
  * the command line (Node's `process.argv`),

to a finite trace of observable effects (engine calls, console prints,
file creations, process exit).  Errors thrown inside a verb are an
explicit `errored` outcome, turned into a print + exit by the top-level
`.catch` handler, exactly as in the source.
-/

/-- The destination value passed to the engine's `down`: either the string
taken from the command line or the literal sentinel `0`
(`this.undo(0)` for `db:migrate:undo:all` and `db:reset`). -/
inductive Destination where
  | str (s : String)
  | zero
deriving DecidableEq, Repr

/-- An engine operation the CLI can invoke, together with the options
object it passes (`none` means the operation was called with no options,
`some d` means `{ to: d }`). -/
inductive EngineOp where
  | pending
  | up (dest : Option String)
  | down (dest : Option Destination)
  | executedQ
deriving DecidableEq, Repr

/-- One observable effect of a CLI run. -/
inductive Effect where
  | engineOp (op : EngineOp)
  | print (s : String)
  | fsCreateFile (name : String) (content : String)
  | exit (code : Nat)
deriving DecidableEq, Repr

/-- Outcome of the body of `runTask`: normal return, an early
`process.exit(c)` (only `checkMigrations` does this), or a thrown error
carrying the effects already performed and the error message. -/
inductive Outcome where
  | normal (effs : List Effect)
  | exited (effs : List Effect) (code : Nat)
  | errored (effs : List Effect) (msg : String)
deriving DecidableEq, Repr

/-- Sequencing of two awaited statements (`await this.undo(0); await
this.migrate();`): the second runs only if the first neither exited nor
threw. -/
def Outcome.seq : Outcome → Outcome → Outcome
  | .normal effs, .normal effs2 => .normal (effs ++ effs2)
  | .normal effs, .exited effs2 c => .exited (effs ++ effs2) c
  | .normal effs, .errored effs2 m => .errored (effs ++ effs2) m
  | .exited effs c, _ => .exited effs c
  | .errored effs m, _ => .errored effs m

/-- Prefixing an already-performed effect onto an outcome. -/
def Outcome.prepend (eff : Effect) : Outcome → Outcome
  | .normal effs => .normal (eff :: effs)
  | .exited effs c => .exited (eff :: effs) c
  | .errored effs m => .errored (eff :: effs) m

/-- Result of one awaited engine call: a list of migration file names on
fulfillment (for migration objects the CLI only ever reads
`migration.file`), or the rejection's error message. -/
def EngineResult := Except String (List String)

/-- The abstract engine oracle: the values (or rejections) the wrapped
`umzug` instance returns to the CLI for each possible call. -/
structure Engine where
  /-- result of `umzug.pending()` -/
  pendingRes : EngineResult
  /-- result of `umzug.up()` -/
  upAllRes : EngineResult
  /-- result of `umzug.up({ to })` -/
  upToRes : String → EngineResult
  /-- result of `umzug.down()` -/
  downOneRes : EngineResult
  /-- result of `umzug.down({ to })` -/
  downToRes : Destination → EngineResult
  /-- result of `umzug.storage.executed()` -/
  executedRes : EngineResult

/-- `await` of one engine call: the call itself is an observable effect;
a rejection propagates as a thrown error, otherwise the verb body `k`
continues with the fulfilled value. -/
def withCall (op : EngineOp) (res : EngineResult) (k : List String → Outcome) : Outcome :=
  match res with
  | .error m => .errored [.engineOp op] m
  | .ok migrations => (k migrations).prepend (.engineOp op)

/-- The UTC components of the current date, as returned by the
JavaScript `Date` getters used in `generate` (`getUTCMonth` is 0-based;
the source adds 1). -/
structure UTCDate where
  year : Nat
  monthIndex : Nat
  day : Nat
  hours : Nat
  minutes : Nat
  seconds : Nat

/-- The options object built at the bottom of `cli.js` from
`process.argv[3]`, depending on the task. -/
structure CliOptions where
  migrateTo : Option String := none
  undoTo : Option String := none
  migrationName : Option String := none

namespace MigrationsCli

/-- `String.prototype.padStart(n, c)`. -/
def padStart (s : String) (n : Nat) (c : Char) : String :=
  String.mk (List.replicate (n - s.length) c) ++ s

/-- `_format(number)`: decimal string zero-padded to two characters. -/
def format (number : Nat) : String :=
  padStart (toString number) 2 '0'

/-- The timestamp built in `generate`: unpadded UTC year followed by the
two-digit padded month (0-based getter plus one), day, hours, minutes
and seconds, joined with no separator. -/
def timestamp (d : UTCDate) : String :=
  toString d.year ++ format (d.monthIndex + 1) ++ format d.day
    ++ format d.hours ++ format d.minutes ++ format d.seconds

/-- The file name `generate` writes: `` `${timestamp}-${migrationName}.js` ``. -/
def generatedFileName (d : UTCDate) (migrationName : String) : String :=
  timestamp d ++ "-" ++ migrationName ++ ".js"

/-- `JavaScript String.prototype.replace` with a plain-string pattern:
remove the first (leftmost) occurrence of `pat`, on character lists. -/
def replaceFirstAux : List Char → List Char → List Char
  | [], _ => []
  | c :: rest, pat =>
    if pat.isPrefixOf (c :: rest) then (c :: rest).drop pat.length
    else c :: replaceFirstAux rest pat

/-- `s.replace(pat, '')` for a plain-string `pat`: only the first
occurrence is removed; if `pat` does not occur, `s` is returned. -/
def jsReplaceFirst (s pat : String) : String :=
  String.mk (replaceFirstAux s.data pat.data)

/-- `_printMigration(migration, index)`: strips the first `'.js'` from
the file name and prefixes `index)` (1-based index supplied by
`_printMigrations`) or `-` when no index is given. -/
def printMigration (fileName : String) (index : Option Nat) : Effect :=
  let name := jsReplaceFirst fileName ".js"
  let pfx := match index with
    | some i => toString i ++ ")"
    | none => "-"
  .print ("  " ++ pfx ++ " " ++ name)

/-- `_printMigrations(migrations)`: each migration printed with its
1-based index (`forEach` index + 1). -/
def printMigrations (migrations : List String) : List Effect :=
  migrations.enum.map (fun p => printMigration p.2 (some (p.1 + 1)))

/-- The usage help text printed by the `default` branch when no task was
given (lines joined with a newline). -/
def usageHelp : String :=
  String.intercalate "\n"
    [ "Available tasks:",
      "  - db:migrate [destination] - Execute all pending migrations [up to specified one]",
      "  - db:migrate:status - Show all pending migrations",
      "  - db:migrate:history - Show all executed migrations",
      "  - db:migrate:undo [destination] - Undo last executed migration or all down to destination if specified",
      "  - db:migrate:undo:all - Undo all executed migrations",
      "  - db:reset - Undo all executed migrations and then execute them again",
      "  - migration:generate <migration name> - Create a new empty migration file" ]

/-- `checkMigrations()`: queries `pending()`; if non-empty prints a hint
and calls `process.exit(1)`, otherwise calls `process.exit()` (code 0). -/
def checkMigrations (e : Engine) : Outcome :=
  withCall .pending e.pendingRes fun migrations =>
    if 0 < migrations.length then
      .exited
        [ .print (String.intercalate "\n"
            [ "You have " ++ toString migrations.length ++ " pending migrations.",
              "Use \x27$ npm run umzug db:migrate:status\x27 to show them.",
              "Use \x27$ npm run umzug db:migrate\x27 to execute all pending migrations." ]) ]
        1
    else
      .exited [] 0

/-- The count line printed by `migrate`. -/
def migrateMsg (migrations : List String) : String :=
  if 0 < migrations.length then
    "Executed " ++ toString migrations.length ++ " migrations."
  else
    "No migrations were executed."

/-- `migrate(destination)`: `up({ to: destination })` when the
destination is not `undefined`, else `up()`; then prints the count. -/
def migrate (e : Engine) (destination : Option String) : Outcome :=
  let res := match destination with
    | some d => e.upToRes d
    | none => e.upAllRes
  withCall (.up destination) res fun migrations =>
    .normal [.print (migrateMsg migrations)]

/-- The count line printed by `undo`. -/
def undoMsg (migrations : List String) : String :=
  if 0 < migrations.length then
    "Reverted " ++ toString migrations.length ++ " migrations."
  else
    "No migrations were reverted."

/-- `undo(destination)`: `down({ to: destination })` when the
destination is not `undefined` (note `0 !== undefined`), else `down()`;
then prints the count. -/
def undo (e : Engine) (destination : Option Destination) : Outcome :=
  let res := match destination with
    | some d => e.downToRes d
    | none => e.downOneRes
  withCall (.down destination) res fun migrations =>
    .normal [.print (undoMsg migrations)]

/-- `printPending()`. -/
def printPending (e : Engine) : Outcome :=
  withCall .pending e.pendingRes fun migrations =>
    if 0 < migrations.length then
      .normal (.print "Pending migrations:" :: printMigrations migrations)
    else
      .normal [.print "No pending migrations."]

/-- `printExecuted()` (reads `umzug.storage.executed()`). -/
def printExecuted (e : Engine) : Outcome :=
  withCall .executedQ e.executedRes fun migrations =>
    if 0 < migrations.length then
      .normal (.print "Executed migrations:" :: printMigrations migrations)
    else
      .normal [.print "No executed migrations."]

/-- `generate(migrationName)`: copies the template
`migrations/migration.sample.js` byte-for-byte into a new file named
`` `${timestamp}-${migrationName}.js` `` and prints a confirmation
(success path of the stream copy). -/
def generate (tmpl : String) (d : UTCDate) (migrationName : String) : Outcome :=
  let migrationFileName := generatedFileName d migrationName
  .normal
    [ .fsCreateFile migrationFileName tmpl,
      .print ("Migration file \x27" ++ migrationFileName ++ "\x27 has been created.") ]

/-- `runTask(task, options)`: the `switch` dispatch.  `task` is
`process.argv[2]` (absent command line argument modelled as `none`).
JavaScript truthiness is modelled faithfully: in the `default` branch
`if (task)` is false for the empty string, and in `migration:generate`
`if (!migrationName)` throws also for the empty string. -/
def runTask (e : Engine) (tmpl : String) (d : UTCDate)
    (task : Option String) (options : CliOptions) : Outcome :=
  match task with
  | some "db:migrate:check" => checkMigrations e
  | some "db:migrate" => migrate e options.migrateTo
  | some "db:migrate:status" => printPending e
  | some "db:migrate:history" => printExecuted e
  | some "db:migrate:undo" => undo e (options.undoTo.map Destination.str)
  | some "db:migrate:undo:all" => undo e (some Destination.zero)
  | some "db:reset" => (undo e (some Destination.zero)).seq (migrate e none)
  | some "migration:generate" =>
    match options.migrationName with
    | some name =>
      if name = "" then .errored [] "Migration name should be specified."
      else generate tmpl d name
    | none => .errored [] "Migration name should be specified."
  | some t =>
    if t = "" then .normal [.print usageHelp]
    else .errored [] "Task not found."
  | none => .normal [.print usageHelp]

/-- The top-level `.then`/`.catch`: a normal return becomes
`process.exit()` (code 0), an early exit keeps its code, and a thrown
error is printed as `console.log('Error:', error.message)` followed by
`process.exit(1)`. -/
def finalize : Outcome → List Effect
  | .normal effs => effs ++ [.exit 0]
  | .exited effs c => effs ++ [.exit c]
  | .errored effs m => effs ++ [.print ("Error: " ++ m), .exit 1]

/-- The options object built from `process.argv` at the bottom of the
file: only the task's own option is populated, from `process.argv[3]`. -/
def cliOptionsFor (argv : List String) : CliOptions :=
  let task := argv.get? 2
  if task = some "db:migrate" then { migrateTo := argv.get? 3 }
  else if task = some "db:migrate:undo" then { undoTo := argv.get? 3 }
  else if task = some "migration:generate" then { migrationName := argv.get? 3 }
  else {}

/-- A whole CLI run: `argv` is Node's `process.argv`
(`[node, script, ...args]`); the task is `process.argv[2]`. -/
def cliMain (e : Engine) (tmpl : String) (d : UTCDate) (argv : List String) : List Effect :=
  finalize (runTask e tmpl d (argv.get? 2) (cliOptionsFor argv))

/-- The four lifecycle listeners registered in the constructor, in
registration order, each mapping the migration id it receives to the
line it logs. -/
inductive EventKind where
  | migrating
  | migrated
  | reverting
  | reverted
deriving DecidableEq, Repr

/-- A registered listener: the event kind and the log line produced from
the migration id. -/
structure Listener where
  kind : EventKind
  log : String → String

/-- The `umzug.on(...)` chain in the `MigrationsCli` constructor. -/
def cliListeners : List Listener :=
  [ ⟨.migrating, fun migration => "== " ++ migration ++ ": migrating =="⟩,
    ⟨.migrated, fun migration => "== " ++ migration ++ ": migrated ==\n"⟩,
    ⟨.reverting, fun migration => "== " ++ migration ++ ": reverting =="⟩,
    ⟨.reverted, fun migration => "== " ++ migration ++ ": reverted ==\n"⟩ ]

/-- The engine operations occurring in a trace, in order. -/
def engineCallsOf (effs : List Effect) : List EngineOp :=
  effs.filterMap (fun eff => match eff with
    | .engineOp op => some op
    | _ => none)

/-- The files created by a trace, in order, with their contents. -/
def fileCreatesOf (effs : List Effect) : List (String × String) :=
  effs.filterMap (fun eff => match eff with
    | .fsCreateFile n c => some (n, c)
    | _ => none)

/-- The trace ends with `process.exit(c)`. -/
def exitsWith (effs : List Effect) (c : Nat) : Prop :=
  effs.getLast? = some (.exit c)

/-- `sub` occurs as a contiguous substring of `s`. -/
def containsSub (s sub : String) : Prop :=
  sub.data <:+: s.data

/-- The tasks with a `case` in the `switch` of `runTask` (the dispatch
table). -/
def knownTasks : List String :=
  [ "db:migrate:check", "db:migrate", "db:migrate:status", "db:migrate:history",
    "db:migrate:undo", "db:migrate:undo:all", "db:reset", "migration:generate" ]

/-- A fixed UTC instant used for concrete runs: 2023-01-01 12:00:00 UTC
(the month getter is 0-based, so January is 0). -/
def sampleDate : UTCDate := ⟨2023, 0, 1, 12, 0, 0⟩

/-- A concrete engine oracle used for concrete runs. -/
def sampleEngine : Engine :=
  ⟨.ok ["20230101120000-one.js"], .ok ["20230101120000-one.js"],
    fun _ => .ok ["20230101120000-one.js"], .ok ["20230101120000-one.js"],
    fun _ => .ok ["20230101120000-one.js", "20230101120001-two.js"],
    .ok ["20230101120000-one.js"]⟩

end MigrationsCli

open MigrationsCli

/-! ## Auxiliary lemmas -/

/-- For positive `n` below the fuel bound, `Nat.toDigitsCore` produces
one character per decimal digit of `n` on top of the accumulator. -/
theorem toDigitsCore_length_eq (f : Nat) :
    ∀ (n : Nat) (l : List Char), 0 < n → n < 10 ^ f →
      (Nat.toDigitsCore 10 f n l).length = Nat.log 10 n + 1 + l.length := by
  induction f with
  | zero =>
    intro n l hn hf
    simp at hf
    omega
  | succ f ih =>
    intro n l hn hf
    unfold Nat.toDigitsCore
    by_cases h : n / 10 = 0
    · have hlt : n < 10 := by omega
      have hlog : Nat.log 10 n = 0 := Nat.log_eq_zero_iff.mpr (Or.inl hlt)
      simp [h, hlog]
      omega
    · have h10 : 10 ≤ n := by omega
      have hdiv : n / 10 < 10 ^ f := by
        rw [Nat.div_lt_iff_lt_mul (by norm_num : (0:Nat) < 10)]
        calc n < 10 ^ (f + 1) := hf
          _ = 10 ^ f * 10 := by ring
      have hrec := ih (n / 10) (Nat.digitChar (n % 10) :: l) (Nat.pos_of_ne_zero h) hdiv
      simp only [h, if_false] at *
      rw [hrec]
      have hlog : Nat.log 10 (n / 10) + 1 = Nat.log 10 n := by
        rw [Nat.log_div_base]
        have := Nat.log_pos (b := 10) (by norm_num) h10
        omega
      simp only [List.length_cons]
      omega

/-- The decimal representation of a positive natural has
`Nat.log 10 n + 1` characters. -/
theorem repr_length_of_pos (n : Nat) (h : 0 < n) :
    (Nat.repr n).length = Nat.log 10 n + 1 := by
  have h2 : n < 10 ^ (n + 1) :=
    lt_of_lt_of_le (Nat.lt_two_pow n)
      (le_trans (Nat.pow_le_pow_left (by norm_num) n)
        (Nat.pow_le_pow_right (by norm_num) (Nat.le_succ n)))
  have := toDigitsCore_length_eq (n + 1) n [] h h2
  simpa [Nat.repr, Nat.toDigits, List.asString, String.length] using this

/-- A year between 1000 and 9999 prints with exactly four digits. -/
theorem repr_length_four (n : Nat) (h1 : 1000 ≤ n) (h2 : n ≤ 9999) :
    (Nat.repr n).length = 4 := by
  rw [repr_length_of_pos n (by omega)]
  have h3 : (10:ℕ) ^ 3 ≤ n := by norm_num; omega
  have h4 : n < (10:ℕ) ^ (3 + 1) := by norm_num; omega
  rw [Nat.log_eq_of_pow_le_of_lt_pow h3 h4]

/-- Length of the JavaScript-style `padStart`. -/
theorem padStart_length (s : String) (n : Nat) (c : Char) :
    (padStart s n c).length = max n s.length := by
  unfold padStart
  rw [String.length_append]
  show (List.replicate (n - s.length) c).length + s.length = max n s.length
  rw [List.length_replicate]
  omega

/-- `_format` produces exactly two characters for numbers below 100. -/
theorem format_length (n : Nat) (h : n < 100) : (format n).length = 2 := by
  unfold format
  rw [padStart_length]
  have : (toString n).length ≤ 2 := Nat.repr_length n 2 (by norm_num) (by omega)
  omega

/-- Under the ranges the JavaScript `Date` UTC getters guarantee, and
for a four-digit year, the generated timestamp has exactly 14
characters. -/
theorem timestamp_length (d : UTCDate) (hy1 : 1000 ≤ d.year) (hy2 : d.year ≤ 9999)
    (hm : d.monthIndex < 12) (hd : d.day < 32) (hh : d.hours < 24)
    (hmin : d.minutes < 60) (hs : d.seconds < 60) :
    (timestamp d).length = 14 := by
  unfold timestamp
  rw [String.length_append, String.length_append, String.length_append,
    String.length_append, String.length_append]
  rw [format_length (d.monthIndex + 1) (by omega), format_length d.day (by omega),
    format_length d.hours (by omega), format_length d.minutes (by omega),
    format_length d.seconds (by omega)]
  have : (toString d.year).length = 4 := repr_length_four d.year hy1 hy2
  omega

/-- `replaceFirstAux` removes an occurrence of `pat` that is leftmost
(no split of the same list puts `pat` further to the left), keeping
everything around it. -/
theorem replaceFirstAux_leftmost (pat : List Char) :
    ∀ (a b : List Char), pat ≠ [] →
      (∀ a' b', a ++ pat ++ b = a' ++ pat ++ b' → a.length ≤ a'.length) →
      replaceFirstAux (a ++ pat ++ b) pat = a ++ b := by
  intro a
  induction a with
  | nil =>
    intro b hpat hmin
    rcases pat with _ | ⟨c, cs⟩
    · exact absurd rfl hpat
    · show replaceFirstAux (c :: (cs ++ b)) (c :: cs) = b
      have hpre : (c :: cs).isPrefixOf (c :: cs ++ b) = true := by
        rw [List.isPrefixOf_iff_prefix]
        exact ⟨b, by simp⟩
      unfold replaceFirstAux
      simp only [List.nil_append] at *
      rw [if_pos]
      · show (c :: (cs ++ b)).drop (c :: cs).length = b
        have : c :: (cs ++ b) = (c :: cs) ++ b := by simp
        rw [this, List.drop_left]
      · exact hpre
  | cons c a ih =>
    intro b hpat hmin
    have hnotpre : ¬ pat.isPrefixOf (c :: a ++ pat ++ b) = true := by
      intro hcontra
      rw [List.isPrefixOf_iff_prefix] at hcontra
      rcases hcontra with ⟨t, ht⟩
      have := hmin [] t (by simpa using ht.symm)
      simp at this
    show replaceFirstAux (c :: (a ++ pat ++ b)) pat = c :: (a ++ b)
    unfold replaceFirstAux
    rw [if_neg (by simpa using hnotpre)]
    congr 1
    apply ih b hpat
    intro a' b' hsplit
    have := hmin (c :: a') b' (by simp [hsplit])
    simpa using this

/-! ## Claims -/

/-- C1 (counterexample): at the fixed instant 2023-01-01 12:00:00 UTC with
name `add-index`, `migration:generate` creates exactly one file, but its
name is `20230101120000-add-index.js` and not the bare concatenation
`<timestamp>-add-index` the claim states: the source appends a `.js`
extension. -/
theorem generate_filename_counterexample :
    fileCreatesOf (finalize (runTask sampleEngine "TEMPLATE" sampleDate
        (some "migration:generate") { migrationName := some "add-index" })) =
      [("20230101120000-add-index.js", "TEMPLATE")]
    ∧ fileCreatesOf (finalize (runTask sampleEngine "TEMPLATE" sampleDate
        (some "migration:generate") { migrationName := some "add-index" })) ≠
      [(timestamp sampleDate ++ "-" ++ "add-index", "TEMPLATE")]
    ∧ timestamp sampleDate = "20230101120000" :=
  ⟨rfl, by decide, rfl⟩

/-- C1 (amended): for every migration name given as a non-empty argument
and every fixed UTC instant (with the ranges the `Date` getters
guarantee and a four-digit year), `migration:generate` creates exactly
one new file, named the 14-character zero-padded UTC timestamp
`YYYYMMDDHHMMSS` concatenated with `-`, the given name and the `.js`
extension, whose content is byte-identical to the template; it performs
no engine operation and exits 0. -/
theorem generate_spec (e : Engine) (tmpl : String) (d : UTCDate) (name : String)
    (opts : CliOptions) (hopt : opts.migrationName = some name) (hname : name ≠ "")
    (hy1 : 1000 ≤ d.year) (hy2 : d.year ≤ 9999) (hm : d.monthIndex < 12)
    (hd : d.day < 32) (hh : d.hours < 24) (hmin : d.minutes < 60) (hs : d.seconds < 60) :
    fileCreatesOf (finalize (runTask e tmpl d (some "migration:generate") opts)) =
      [(timestamp d ++ "-" ++ name ++ ".js", tmpl)]
    ∧ (timestamp d).length = 14
    ∧ engineCallsOf (finalize (runTask e tmpl d (some "migration:generate") opts)) = []
    ∧ exitsWith (finalize (runTask e tmpl d (some "migration:generate") opts)) 0 := by
  refine ⟨?_, timestamp_length d hy1 hy2 hm hd hh hmin hs, ?_, ?_⟩ <;>
    simp [runTask, generate, hopt, hname, generatedFileName, finalize, fileCreatesOf,
      engineCallsOf, exitsWith, List.getLast?_concat]

/-- C1 (witness): the amended statement evaluated at the fixed instant
2023-01-01 12:00:00 UTC with name `add-index`. -/
theorem generate_spec_witness :
    fileCreatesOf (finalize (runTask sampleEngine "TEMPLATE" sampleDate
        (some "migration:generate") { migrationName := some "add-index" })) =
      [(timestamp sampleDate ++ "-" ++ "add-index" ++ ".js", "TEMPLATE")]
    ∧ (timestamp sampleDate).length = 14 :=
  ⟨(generate_spec sampleEngine "TEMPLATE" sampleDate "add-index"
      { migrationName := some "add-index" } rfl (by decide) (by decide) (by decide)
      (by decide) (by decide) (by decide) (by decide) (by decide)).1,
   (generate_spec sampleEngine "TEMPLATE" sampleDate "add-index"
      { migrationName := some "add-index" } rfl (by decide) (by decide) (by decide)
      (by decide) (by decide) (by decide) (by decide) (by decide)).2.1⟩

/-- C2: for every state of the store, `db:migrate:check` exits 1 when the
pending set the engine returns is non-empty and exits 0 when it is
empty; its only engine call is `pending()` (so it never applies or
reverts a migration) and it creates no file. -/
theorem migrate_check_spec (e : Engine) (tmpl : String) (d : UTCDate)
    (opts : CliOptions) (migrations : List String) :
    (e.pendingRes = .ok migrations →
      ((0 < migrations.length →
        exitsWith (finalize (runTask e tmpl d (some "db:migrate:check") opts)) 1)
      ∧ (migrations.length = 0 →
        exitsWith (finalize (runTask e tmpl d (some "db:migrate:check") opts)) 0)))
    ∧ engineCallsOf (finalize (runTask e tmpl d (some "db:migrate:check") opts)) = [.pending]
    ∧ fileCreatesOf (finalize (runTask e tmpl d (some "db:migrate:check") opts)) = [] := by
  refine ⟨fun h => ⟨fun hpos => ?_, fun hzero => ?_⟩, ?_, ?_⟩
  · simp [runTask, checkMigrations, withCall, h, hpos, Outcome.prepend, finalize,
      exitsWith, List.getLast?_concat]
  · simp [runTask, checkMigrations, withCall, h, hzero, Outcome.prepend, finalize,
      exitsWith, List.getLast?_concat]
  · rcases hres : e.pendingRes with m | migs
    · simp [runTask, checkMigrations, withCall, hres, finalize, engineCallsOf]
    · by_cases hl : 0 < migs.length <;>
        simp [runTask, checkMigrations, withCall, hres, hl, Outcome.prepend, finalize,
          engineCallsOf]
  · rcases hres : e.pendingRes with m | migs
    · simp [runTask, checkMigrations, withCall, hres, finalize, fileCreatesOf]
    · by_cases hl : 0 < migs.length <;>
        simp [runTask, checkMigrations, withCall, hres, hl, Outcome.prepend, finalize,
          fileCreatesOf]

/-- C2 (witness): with one pending migration, `db:migrate:check` exits 1. -/
theorem migrate_check_spec_witness :
    exitsWith (finalize (runTask sampleEngine "TEMPLATE" sampleDate
      (some "db:migrate:check") {})) 1 :=
  ((migrate_check_spec sampleEngine "TEMPLATE" sampleDate {}
    ["20230101120000-one.js"]).1 rfl).1 (by decide)

/-- C3: every error thrown during the handling of a verb is turned, at
the single top-level catch, into printing `Error: ` followed by the
message and exiting 1; in particular `migration:generate` without a name
throws `Migration name should be specified.`. -/
theorem error_handling_spec (e : Engine) (tmpl : String) (d : UTCDate)
    (task : Option String) (opts : CliOptions) :
    (∀ effs msg, runTask e tmpl d task opts = .errored effs msg →
      (finalize (runTask e tmpl d task opts) =
        effs ++ [.print ("Error: " ++ msg), .exit 1]
      ∧ exitsWith (finalize (runTask e tmpl d task opts)) 1))
    ∧ runTask e tmpl d (some "migration:generate") { opts with migrationName := none } =
        .errored [] "Migration name should be specified." := by
  refine ⟨fun effs msg h => ⟨?_, ?_⟩, ?_⟩
  · rw [h]; rfl
  · rw [h]; simp [finalize, exitsWith, List.getLast?_concat]
  · rfl

/-- C3 (witness): an unknown task, which throws `Task not found.`, ends
with the error print and exit 1. -/
theorem error_handling_spec_witness :
    finalize (runTask sampleEngine "TEMPLATE" sampleDate (some "nonsense") {}) =
      [.print "Error: Task not found.", .exit 1] :=
  ((error_handling_spec sampleEngine "TEMPLATE" sampleDate (some "nonsense") {}).1
    [] "Task not found." rfl).1

/-- C4: `db:migrate:undo` calls the engine `down` with the given target
exactly when a positional argument was given and with no options
otherwise, `db:migrate:undo:all` always calls `down` with the sentinel
`0`, and neither verb ever calls `up`. -/
theorem undo_dispatch_spec (e : Engine) (tmpl : String) (d : UTCDate)
    (opts : CliOptions) :
    (∀ a, opts.undoTo = some a →
      engineCallsOf (finalize (runTask e tmpl d (some "db:migrate:undo") opts)) =
        [.down (some (.str a))])
    ∧ (opts.undoTo = none →
      engineCallsOf (finalize (runTask e tmpl d (some "db:migrate:undo") opts)) =
        [.down none])
    ∧ engineCallsOf (finalize (runTask e tmpl d (some "db:migrate:undo:all") opts)) =
        [.down (some .zero)]
    ∧ (∀ op,
        (op ∈ engineCallsOf (finalize (runTask e tmpl d (some "db:migrate:undo") opts))
          ∨ op ∈ engineCallsOf (finalize (runTask e tmpl d (some "db:migrate:undo:all") opts))) →
        ∀ x, op ≠ .up x) := by
  have hall : engineCallsOf (finalize (runTask e tmpl d (some "db:migrate:undo:all") opts)) =
      [.down (some .zero)] := by
    rcases hres : e.downToRes .zero with m | migs <;>
      simp [runTask, undo, withCall, hres, Outcome.prepend, finalize, engineCallsOf]
  have hundo : engineCallsOf (finalize (runTask e tmpl d (some "db:migrate:undo") opts)) =
      [.down (opts.undoTo.map Destination.str)] := by
    rcases hto : opts.undoTo with _ | a
    · rcases hres : e.downOneRes with m | migs <;>
        simp [runTask, undo, withCall, hto, hres, Outcome.prepend, finalize, engineCallsOf]
    · rcases hres : e.downToRes (.str a) with m | migs <;>
        simp [runTask, undo, withCall, hto, hres, Outcome.prepend, finalize, engineCallsOf]
  refine ⟨fun a ha => ?_, fun hnone => ?_, hall, fun op hop x => ?_⟩
  · rw [hundo, ha]; rfl
  · rw [hundo, hnone]; rfl
  · rcases hop with hop | hop
    · rw [hundo] at hop
      simp at hop
      simp [hop]
    · rw [hall] at hop
      simp at hop
      simp [hop]

/-- C4 (witness): `db:migrate:undo` with a target calls `down` with that
target. -/
theorem undo_dispatch_spec_witness :
    engineCallsOf (finalize (runTask sampleEngine "TEMPLATE" sampleDate
      (some "db:migrate:undo") { undoTo := some "20230101120000-one.js" })) =
      [.down (some (.str "20230101120000-one.js"))] :=
  (undo_dispatch_spec sampleEngine "TEMPLATE" sampleDate
    { undoTo := some "20230101120000-one.js" }).1 "20230101120000-one.js" rfl

/-- C5: `db:migrate` calls the engine `up` with the given target exactly
when a positional argument was given and with no options otherwise, and
then prints `Executed N migrations.` when the returned count N is
positive and `No migrations were executed.` when it is zero. -/
theorem migrate_dispatch_spec (e : Engine) (tmpl : String) (d : UTCDate)
    (opts : CliOptions) :
    (∀ dst, opts.migrateTo = some dst →
      (engineCallsOf (finalize (runTask e tmpl d (some "db:migrate") opts)) = [.up (some dst)]
      ∧ ∀ migs, e.upToRes dst = .ok migs →
          finalize (runTask e tmpl d (some "db:migrate") opts) =
            [.engineOp (.up (some dst)), .print (migrateMsg migs), .exit 0]))
    ∧ (opts.migrateTo = none →
      (engineCallsOf (finalize (runTask e tmpl d (some "db:migrate") opts)) = [.up none]
      ∧ ∀ migs, e.upAllRes = .ok migs →
          finalize (runTask e tmpl d (some "db:migrate") opts) =
            [.engineOp (.up none), .print (migrateMsg migs), .exit 0]))
    ∧ (∀ migs : List String,
        (0 < migs.length →
          migrateMsg migs = "Executed " ++ toString migs.length ++ " migrations.")
        ∧ (migs.length = 0 → migrateMsg migs = "No migrations were executed.")) := by
  refine ⟨fun dst hdst => ⟨?_, fun migs hok => ?_⟩,
    fun hnone => ⟨?_, fun migs hok => ?_⟩, fun migs => ⟨fun hpos => ?_, fun hzero => ?_⟩⟩
  · rcases hres : e.upToRes dst with m | migs <;>
      simp [runTask, migrate, withCall, hdst, hres, Outcome.prepend, finalize, engineCallsOf]
  · simp [runTask, migrate, withCall, hdst, hok, Outcome.prepend, finalize]
  · rcases hres : e.upAllRes with m | migs <;>
      simp [runTask, migrate, withCall, hnone, hres, Outcome.prepend, finalize, engineCallsOf]
  · simp [runTask, migrate, withCall, hnone, hok, Outcome.prepend, finalize]
  · simp [migrateMsg, hpos]
  · simp [migrateMsg, hzero]

/-- C5 (witness): `db:migrate` with a target calls `up` with that target
and prints the count of the one applied migration. -/
theorem migrate_dispatch_spec_witness :
    finalize (runTask sampleEngine "TEMPLATE" sampleDate (some "db:migrate")
      { migrateTo := some "20230101120000-one.js" }) =
      [.engineOp (.up (some "20230101120000-one.js")),
       .print "Executed 1 migrations.", .exit 0] :=
  ((migrate_dispatch_spec sampleEngine "TEMPLATE" sampleDate
      { migrateTo := some "20230101120000-one.js" }).1
    "20230101120000-one.js" rfl).2 ["20230101120000-one.js"] rfl

/-- C6 (counterexample): on the command line
`node cli.js db:migrate:history ignored`, the CLI dispatches on
`process.argv[2]` (`db:migrate:history`), not on `process.argv[1]`
(`cli.js`, which is no verb and would end in `Task not found.` and
exit 1). -/
theorem argv_index_counterexample :
    cliMain sampleEngine "TEMPLATE" sampleDate
        ["node", "cli.js", "db:migrate:history", "ignored"] =
      [.engineOp .executedQ, .print "Executed migrations:",
       .print "  1) 20230101120000-one", .exit 0]
    ∧ ["node", "cli.js", "db:migrate:history", "ignored"].get? 1 = some "cli.js"
    ∧ finalize (runTask sampleEngine "TEMPLATE" sampleDate (some "cli.js") {}) =
        [.print "Error: Task not found.", .exit 1]
    ∧ cliMain sampleEngine "TEMPLATE" sampleDate
        ["node", "cli.js", "db:migrate:history", "ignored"] ≠
      finalize (runTask sampleEngine "TEMPLATE" sampleDate (some "cli.js") {}) :=
  ⟨rfl, rfl, rfl, by decide⟩

/-- C6 (amended): the CLI ignores the first two entries of
`process.argv` (interpreter and script path) and takes `argv[2]` as the
verb and `argv[3]` as the optional positional argument (target id for
`db:migrate` and `db:migrate:undo`, name for `migration:generate`). -/
theorem argv_dispatch_spec (e : Engine) (tmpl : String) (d : UTCDate) :
    (∀ a0 a1 b0 b1 rest,
      cliMain e tmpl d (a0 :: a1 :: rest) = cliMain e tmpl d (b0 :: b1 :: rest))
    ∧ (∀ a0 a1 v p rest,
      cliMain e tmpl d (a0 :: a1 :: v :: p :: rest) =
        finalize (runTask e tmpl d (some v)
          { migrateTo := if v = "db:migrate" then some p else none,
            undoTo := if v = "db:migrate:undo" then some p else none,
            migrationName := if v = "migration:generate" then some p else none }))
    ∧ (∀ a0 a1 v, cliMain e tmpl d [a0, a1, v] =
        finalize (runTask e tmpl d (some v) {})) := by
  refine ⟨fun a0 a1 b0 b1 rest => ?_, fun a0 a1 v p rest => ?_, fun a0 a1 v => ?_⟩
  · simp [cliMain, cliOptionsFor]
  · by_cases h1 : v = "db:migrate"
    · simp [cliMain, cliOptionsFor, h1]
    · by_cases h2 : v = "db:migrate:undo"
      · simp [cliMain, cliOptionsFor, h1, h2]
      · by_cases h3 : v = "migration:generate"
        · simp [cliMain, cliOptionsFor, h1, h2, h3]
        · simp [cliMain, cliOptionsFor, h1, h2, h3]
  · by_cases h1 : v = "db:migrate"
    · simp [cliMain, cliOptionsFor, h1]
    · by_cases h2 : v = "db:migrate:undo"
      · simp [cliMain, cliOptionsFor, h1, h2]
      · by_cases h3 : v = "migration:generate"
        · simp [cliMain, cliOptionsFor, h1, h2, h3]
        · simp [cliMain, cliOptionsFor, h1, h2, h3]

/-- C6 (witness): the amended dispatch rule evaluated on a concrete
command line. -/
theorem argv_dispatch_spec_witness :
    cliMain sampleEngine "TEMPLATE" sampleDate ["node", "cli.js", "db:reset"] =
      finalize (runTask sampleEngine "TEMPLATE" sampleDate (some "db:reset") {}) :=
  (argv_dispatch_spec sampleEngine "TEMPLATE" sampleDate).2.2 "node" "cli.js" "db:reset"

/-- C7: `db:reset` performs the engine operations `down({ to: 0 })` and
`up()` in this order and no others; the apply step starts only after the
revert step (including its summary print) has completed, and is skipped
entirely when the revert fails. -/
theorem reset_spec (e : Engine) (tmpl : String) (d : UTCDate) (opts : CliOptions) :
    engineCallsOf (finalize (runTask e tmpl d (some "db:reset") opts)) <+:
      [.down (some .zero), .up none]
    ∧ (∀ l, e.downToRes .zero = .ok l →
        engineCallsOf (finalize (runTask e tmpl d (some "db:reset") opts)) =
          [.down (some .zero), .up none])
    ∧ (∀ l m, e.downToRes .zero = .ok l → e.upAllRes = .ok m →
        finalize (runTask e tmpl d (some "db:reset") opts) =
          [.engineOp (.down (some .zero)), .print (undoMsg l),
           .engineOp (.up none), .print (migrateMsg m), .exit 0]) := by
  refine ⟨?_, fun l hdown => ?_, fun l m hdown hup => ?_⟩
  · rcases hdres : e.downToRes .zero with dm | dl
    · simp [runTask, undo, migrate, withCall, hdres, Outcome.prepend, Outcome.seq,
        finalize, engineCallsOf]
    · rcases hures : e.upAllRes with um | ul <;>
        simp [runTask, undo, migrate, withCall, hdres, hures, Outcome.prepend,
          Outcome.seq, finalize, engineCallsOf]
  · rcases hures : e.upAllRes with um | ul <;>
      simp [runTask, undo, migrate, withCall, hdown, hures, Outcome.prepend,
        Outcome.seq, finalize, engineCallsOf]
  · simp [runTask, undo, migrate, withCall, hdown, hup, Outcome.prepend,
      Outcome.seq, finalize]

/-- C7 (witness): the full `db:reset` trace at a concrete engine. -/
theorem reset_spec_witness :
    finalize (runTask sampleEngine "TEMPLATE" sampleDate (some "db:reset") {}) =
      [.engineOp (.down (some .zero)), .print "Reverted 2 migrations.",
       .engineOp (.up none), .print "Executed 1 migrations.", .exit 0] :=
  (reset_spec sampleEngine "TEMPLATE" sampleDate {}).2.2
    ["20230101120000-one.js", "20230101120001-two.js"] ["20230101120000-one.js"] rfl rfl

/-- C8 (counterexample): invoking the CLI with the empty string as the
verb — a verb that is not in the dispatch table — prints the usage help
and exits 0, not 1: the `default` branch tests JavaScript truthiness of
the task, and the empty string is falsy. -/
theorem empty_task_counterexample :
    cliMain sampleEngine "TEMPLATE" sampleDate ["node", "cli.js", ""] =
      [.print usageHelp, .exit 0]
    ∧ "" ∉ knownTasks
    ∧ ¬ exitsWith (cliMain sampleEngine "TEMPLATE" sampleDate ["node", "cli.js", ""]) 1 :=
  ⟨rfl, by decide, fun h => absurd
    (show (cliMain sampleEngine "TEMPLATE" sampleDate ["node", "cli.js", ""]).getLast? =
        some (.exit 1) from h)
    (by decide)⟩

/-- C8 (amended): with no verb the CLI prints the usage help and exits 0;
with a non-empty verb not in the dispatch table it exits 1 via the
`Task not found.` error; the empty-string verb is treated like no verb
(usage help, exit 0); in all of these cases no engine operation and no
file-system write is performed. -/
theorem unknown_task_spec (e : Engine) (tmpl : String) (d : UTCDate) (opts : CliOptions) :
    finalize (runTask e tmpl d none opts) = [.print usageHelp, .exit 0]
    ∧ (∀ t, t ∉ knownTasks → t ≠ "" →
        finalize (runTask e tmpl d (some t) opts) =
          [.print "Error: Task not found.", .exit 1])
    ∧ finalize (runTask e tmpl d (some "") opts) = [.print usageHelp, .exit 0]
    ∧ (∀ t, t ∉ knownTasks →
        engineCallsOf (finalize (runTask e tmpl d (some t) opts)) = []
        ∧ fileCreatesOf (finalize (runTask e tmpl d (some t) opts)) = [])
    ∧ engineCallsOf (finalize (runTask e tmpl d none opts)) = []
    ∧ fileCreatesOf (finalize (runTask e tmpl d none opts)) = [] := by
  have hmain : ∀ t, t ∉ knownTasks →
      runTask e tmpl d (some t) opts =
        (if t = "" then Outcome.normal [.print usageHelp]
         else Outcome.errored [] "Task not found.") := by
    intro t ht
    simp only [knownTasks, List.mem_cons, List.not_mem_nil, or_false, not_or] at ht
    obtain ⟨h1, h2, h3, h4, h5, h6, h7, h8⟩ := ht
    unfold runTask
    split
    · next heq => exact absurd (by injection heq) h1
    · next heq => exact absurd (by injection heq) h2
    · next heq => exact absurd (by injection heq) h3
    · next heq => exact absurd (by injection heq) h4
    · next heq => exact absurd (by injection heq) h5
    · next heq => exact absurd (by injection heq) h6
    · next heq => exact absurd (by injection heq) h7
    · next heq => exact absurd (by injection heq) h8
    · rename_i veq
      injection veq with veq
      subst veq
      rfl
    · rename_i heq
      exact Option.noConfusion heq
  refine ⟨rfl, fun t ht hne => ?_, rfl, fun t ht => ?_, rfl, rfl⟩
  · rw [hmain t ht, if_neg hne]
    rfl
  · by_cases hne : t = ""
    · subst hne
      exact ⟨rfl, rfl⟩
    · rw [hmain t ht, if_neg hne]
      exact ⟨rfl, rfl⟩

/-- C8 (witness): a concrete non-empty unknown verb ends in the error
print and exit 1. -/
theorem unknown_task_spec_witness :
    finalize (runTask sampleEngine "TEMPLATE" sampleDate (some "frobnicate") {}) =
      [.print "Error: Task not found.", .exit 1] :=
  (unknown_task_spec sampleEngine "TEMPLATE" sampleDate {}).2.1 "frobnicate"
    (by decide) (by decide)

/-- C9: the constructor registers exactly one listener for each of the
four event kinds `migrating`, `migrated`, `reverting` and `reverted`, in
this order, and each listener logs a line that contains the unit id it
was called with. -/
theorem listener_spec :
    cliListeners.map Listener.kind = [.migrating, .migrated, .reverting, .reverted]
    ∧ (∀ k : EventKind, (cliListeners.filter (fun l => l.kind == k)).length = 1)
    ∧ (∀ l, l ∈ cliListeners → ∀ i : String, containsSub (l.log i) i) := by
  refine ⟨rfl, fun k => ?_, fun l hl i => ?_⟩
  · cases k <;> rfl
  · have hdata : ∀ s t : String, (s ++ i ++ t).data = s.data ++ i.data ++ t.data := by
      intro s t
      simp [String.data_append]
    simp only [cliListeners, List.mem_cons, List.not_mem_nil, or_false] at hl
    rcases hl with rfl | rfl | rfl | rfl <;>
      exact ⟨_, _, (hdata _ _).symm⟩

/-- C9 (witness): the first registered listener (for `migrating`) logs a
line containing the concrete unit id it receives. -/
theorem listener_spec_witness :
    containsSub ((cliListeners.get ⟨0, by decide⟩).log "20230101120000-one")
      "20230101120000-one" :=
  listener_spec.2.2 _ (cliListeners.get_mem _ _) "20230101120000-one"

/-- C10: `db:migrate:status` and `db:migrate:history` print each
migration as its file name with only the first occurrence of `.js`
removed, prefixed by a 1-based index; `jsReplaceFirst` removes exactly
the leftmost occurrence, so the file name `a.js.old.js` is printed with
the interior occurrence removed and the trailing `.js` kept
(`a.old.js`). -/
theorem print_migration_spec (e : Engine) (tmpl : String) (d : UTCDate)
    (opts : CliOptions) (migs : List String) :
    (e.pendingRes = .ok migs → 0 < migs.length →
      finalize (runTask e tmpl d (some "db:migrate:status") opts) =
        [.engineOp .pending, .print "Pending migrations:"]
          ++ migs.enum.map (fun p =>
              .print ("  " ++ toString (p.1 + 1) ++ ") " ++ jsReplaceFirst p.2 ".js"))
          ++ [.exit 0])
    ∧ (e.executedRes = .ok migs → 0 < migs.length →
      finalize (runTask e tmpl d (some "db:migrate:history") opts) =
        [.engineOp .executedQ, .print "Executed migrations:"]
          ++ migs.enum.map (fun p =>
              .print ("  " ++ toString (p.1 + 1) ++ ") " ++ jsReplaceFirst p.2 ".js"))
          ++ [.exit 0])
    ∧ (∀ (a b : String),
        (∀ a' b' : List Char, a.data ++ ".js".data ++ b.data = a' ++ ".js".data ++ b' →
          a.data.length ≤ a'.length) →
        jsReplaceFirst (a ++ ".js" ++ b) ".js" = a ++ b)
    ∧ jsReplaceFirst "a.js.old.js" ".js" = "a.old.js" := by
  refine ⟨fun h hlen => ?_, fun h hlen => ?_, fun a b hmin => ?_, by decide⟩
  · simp only [runTask, printPending, withCall, h, hlen, Outcome.prepend, finalize,
      printMigrations, printMigration, if_pos]
    simp
    intro a b hmem
    rw [show (") " : String) = ")" ++ " " from rfl]
    simp [String.append_assoc]
  · simp only [runTask, printExecuted, withCall, h, hlen, Outcome.prepend, finalize,
      printMigrations, printMigration, if_pos]
    simp
    intro a b hmem
    rw [show (") " : String) = ")" ++ " " from rfl]
    simp [String.append_assoc]
  · show String.mk (replaceFirstAux (a ++ ".js" ++ b).data ".js".data) = a ++ b
    have hdata : (a ++ ".js" ++ b).data = a.data ++ ".js".data ++ b.data := by
      simp [String.data_append]
    rw [hdata, replaceFirstAux_leftmost ".js".data a.data b.data (by decide) hmin]
    show String.mk (a.data ++ b.data) = a ++ b
    have : (a ++ b).data = a.data ++ b.data := by simp [String.data_append]
    rw [← this]

/-- C10 (witness): the status listing at a concrete pending set, with the
trailing `.js` stripped and the 1-based index prefixed. -/
theorem print_migration_spec_witness :
    finalize (runTask sampleEngine "TEMPLATE" sampleDate (some "db:migrate:status") {}) =
      [.engineOp .pending, .print "Pending migrations:",
       .print "  1) 20230101120000-one", .exit 0] :=
  (print_migration_spec sampleEngine "TEMPLATE" sampleDate {}
    ["20230101120000-one.js"]).1 rfl (by decide)
